import Mathlib

/-!
Verification of the `prodclass` experiment-tracking utility.

The definitions below are a shallow embedding of the two `ExperimentManager`
implementations of the repository (`src/evaluate/evaluation.py`, an SQLite-backed
variant, and `src/prodclass/evaluate/experiment_manager.py`, a variant delegating
to table-model classes), together with the pieces of the Python standard library
they rely on: `json.dumps` (with and without `sort_keys=True`), UTF-8 encoding,
and `hashlib.md5`.  Machine integers are modelled as `Nat` reduced mod `2^32`
where the algorithm overflows; `float` timestamps are modelled as `ℚ`.
-/

namespace ProdClass

/-- JSON-representable parameter values.  The repository's parameter mappings
are Python dictionaries with string keys; the embedding fixes the value universe
to integers and strings, the shapes exercised by the code and its examples. -/
inductive PValue where
  | int (i : Int)
  | str (s : String)
deriving DecidableEq, Repr

/-- A Python dictionary with string keys, in insertion order
(association list; well-formed dictionaries have pairwise distinct keys). -/
abbrev PDict := List (String × PValue)

/-- The keys of a dictionary, in insertion order. -/
def keysOf (d : PDict) : List String := d.map (·.1)

/-- Dictionary lookup (`d[k]` / `d.get(k)`). -/
def lookupKey (k : String) : PDict → Option PValue
  | [] => none
  | (k1, v) :: rest => if k1 = k then some v else lookupKey k rest

/-- A dictionary has pairwise distinct keys (always true of a Python `dict`). -/
def nodupKeys (d : PDict) : Prop := (keysOf d).Nodup

instance (d : PDict) : Decidable (nodupKeys d) := by
  unfold nodupKeys; infer_instance

/-- Lowercase hexadecimal digit. -/
def hexDigit (n : Nat) : Char :=
  if n < 10 then Char.ofNat (48 + n) else Char.ofNat (87 + n)

/-- `\uXXXX` escape used by `json.dumps` with `ensure_ascii=True`. -/
def uEscape (n : Nat) : String :=
  "\\u" ++ String.mk [hexDigit (n / 4096 % 16), hexDigit (n / 256 % 16),
                      hexDigit (n / 16 % 16), hexDigit (n % 16)]

/-- Escaping of one character inside a JSON string literal, exactly as
Python's `json.dumps` does with its default `ensure_ascii=True`:
the short escapes `\" \\ \n \t \r \b \f`, `\uXXXX` for the other
characters outside `0x20..0x7e`, and surrogate pairs beyond the BMP. -/
def escapeChar (c : Char) : String :=
  if c = '"' then "\\\""
  else if c = '\\' then "\\\\"
  else if c = '\n' then "\\n"
  else if c = '\t' then "\\t"
  else if c = '\r' then "\\r"
  else if c.toNat = 8 then "\\b"
  else if c.toNat = 12 then "\\f"
  else if 32 ≤ c.toNat ∧ c.toNat ≤ 126 then String.singleton c
  else if c.toNat < 65536 then uEscape c.toNat
  else
    uEscape (55296 + (c.toNat - 65536) / 1024) ++ uEscape (56320 + (c.toNat - 65536) % 1024)

/-- JSON serialization of a string (quoted, escaped). -/
def jsonString (s : String) : String :=
  "\"" ++ String.join (s.data.map escapeChar) ++ "\""

/-- JSON serialization of a value (`json.dumps` of an `int` or `str`). -/
def serVal : PValue → String
  | .int i => toString i
  | .str s => jsonString s

/-- JSON serialization of a dictionary in the order given, with the default
separators of `json.dumps`: `\x7b"k1": v1, "k2": v2\x7d`. -/
def serDict (d : PDict) : String :=
  "\x7b" ++ String.intercalate ", " (d.map (fun kv => jsonString kv.1 ++ ": " ++ serVal kv.2)) ++ "\x7d"

/-- Lexicographic code-point order on character lists: the order Python's
`sorted` uses on strings when `json.dumps(..., sort_keys=True)` sorts keys. -/
def charListLe : List Char → List Char → Bool
  | [], _ => true
  | _ :: _, [] => false
  | a :: as, b :: bs => if a < b then true else if b < a then false else charListLe as bs

/-- Key order on dictionary entries (code-point order of the keys). -/
def entryLe (a b : String × PValue) : Prop := charListLe a.1.data b.1.data = true

instance : DecidableRel entryLe := fun a b => by
  unfold entryLe; infer_instance

/-- Sorting of the entries by key, as `json.dumps(..., sort_keys=True)` does
(a stable sort on the key code points; keys of a Python dictionary are
pairwise distinct, so stability never matters). -/
def sortEntries (d : PDict) : PDict :=
  d.insertionSort entryLe

/-- `json.dumps(d, sort_keys=True)`. -/
def dumpsSorted (d : PDict) : String := serDict (sortEntries d)

/-- `json.dumps(d)` (no key sorting; insertion order). -/
def dumpsRaw (d : PDict) : String := serDict d

/-- UTF-8 encoding of one character (`str.encode()`), as a list of bytes. -/
def utf8Char (c : Char) : List Nat :=
  let n := c.toNat
  if n < 128 then [n]
  else if n < 2048 then [192 + n / 64, 128 + n % 64]
  else if n < 65536 then [224 + n / 4096, 128 + n / 64 % 64, 128 + n % 64]
  else [240 + n / 262144, 128 + n / 4096 % 64, 128 + n / 64 % 64, 128 + n % 64]

/-- UTF-8 encoding of a string as a byte list. -/
def utf8Encode (s : String) : List Nat := (s.data.map utf8Char).flatten

/-! ### MD5 (`hashlib.md5`), RFC 1321, over byte lists with `Nat` words mod `2^32` -/

/-- Truncation to a 32-bit word. -/
def w32 (n : Nat) : Nat := n % 4294967296

/-- 32-bit bitwise complement (arguments are kept below `2^32`). -/
def wnot (x : Nat) : Nat := 4294967295 - w32 x

/-- 32-bit left rotation by `s` (for `s ≤ 32`). -/
def rotl (x s : Nat) : Nat := (x % 2 ^ (32 - s)) * 2 ^ s + x / 2 ^ (32 - s)

/-- The 64 MD5 additive constants `floor(abs(sin(i+1)) * 2^32)`. -/
def md5K : List Nat :=
  [3614090360, 3905402710, 606105819, 3250441966, 4118548399, 1200080426, 2821735955,
   4249261313, 1770035416, 2336552879, 4294925233, 2304563134, 1804603682, 4254626195,
   2792965006, 1236535329, 4129170786, 3225465664, 643717713, 3921069994, 3593408605,
   38016083, 3634488961, 3889429448, 568446438, 3275163606, 4107603335, 1163531501,
   2850285829, 4243563512, 1735328473, 2368359562, 4294588738, 2272392833, 1839030562,
   4259657740, 2763975236, 1272893353, 4139469664, 3200236656, 681279174, 3936430074,
   3572445317, 76029189, 3654602809, 3873151461, 530742520, 3299628645, 4096336452,
   1126891415, 2878612391, 4237533241, 1700485571, 2399980690, 4293915773, 2240044497,
   1873313359, 4264355552, 2734768916, 1309151649, 4149444226, 3174756917, 718787259,
   3951481745]

/-- The per-round left-rotation amounts. -/
def md5S : List Nat :=
  [7, 12, 17, 22, 7, 12, 17, 22, 7, 12, 17, 22, 7, 12, 17, 22,
   5, 9, 14, 20, 5, 9, 14, 20, 5, 9, 14, 20, 5, 9, 14, 20,
   4, 11, 16, 23, 4, 11, 16, 23, 4, 11, 16, 23, 4, 11, 16, 23,
   6, 10, 15, 21, 6, 10, 15, 21, 6, 10, 15, 21, 6, 10, 15, 21]

/-- The four MD5 chaining words. -/
structure MD5State where
  a : Nat
  b : Nat
  c : Nat
  d : Nat
deriving DecidableEq, Repr

/-- The round function of round `i`. -/
def md5F (i b c d : Nat) : Nat :=
  if i < 16 then (b &&& c) ||| (wnot b &&& d)
  else if i < 32 then (d &&& b) ||| (wnot d &&& c)
  else if i < 48 then b ^^^ c ^^^ d
  else c ^^^ (b ||| wnot d)

/-- The message-word index consumed by round `i`. -/
def md5G (i : Nat) : Nat :=
  if i < 16 then i
  else if i < 32 then (5 * i + 1) % 16
  else if i < 48 then (3 * i + 5) % 16
  else (7 * i) % 16

/-- List indexing with default 0, for the fixed constant/message tables. -/
def getW (l : List Nat) (i : Nat) : Nat := l.getD i 0

/-- One MD5 round on the chaining state, with message block `m` (16 words). -/
def md5Step (m : List Nat) (st : MD5State) (i : Nat) : MD5State :=
  let f := w32 (md5F i st.b st.c st.d + st.a + getW md5K i + getW m (md5G i))
  ⟨st.d, w32 (st.b + rotl f (getW md5S i)), st.b, st.c⟩

/-- Processing of one 16-word block: 64 rounds, then the Davies–Meyer add. -/
def md5Block (st : MD5State) (m : List Nat) : MD5State :=
  let r := (List.range 64).foldl (md5Step m) st
  ⟨w32 (st.a + r.a), w32 (st.b + r.b), w32 (st.c + r.c), w32 (st.d + r.d)⟩

/-- MD5 padding: `0x80`, zeros to 56 mod 64, then the bit length in 8
little-endian bytes. -/
def padMessage (msg : List Nat) : List Nat :=
  let z := (119 - msg.length % 64) % 64
  msg ++ [128] ++ List.replicate z 0
      ++ (List.range 8).map (fun i => 8 * msg.length / 256 ^ i % 256)

/-- Grouping of bytes into little-endian 32-bit words. -/
def bytesToWords : List Nat → List Nat
  | b0 :: b1 :: b2 :: b3 :: rest =>
      (b0 + 256 * b1 + 65536 * b2 + 16777216 * b3) :: bytesToWords rest
  | _ => []

/-- The MD5 compression pipeline over a byte list. -/
def md5Core (bytes : List Nat) : MD5State :=
  let ws := bytesToWords (padMessage bytes)
  (List.range (ws.length / 16)).foldl
    (fun st bi => md5Block st ((ws.drop (16 * bi)).take 16))
    ⟨1732584193, 4023233417, 2562383102, 271733878⟩

/-- Two lowercase hex digits of a byte. -/
def byteHex (n : Nat) : String :=
  String.mk [hexDigit (n / 16 % 16), hexDigit (n % 16)]

/-- A 32-bit word as 8 hex digits, little-endian byte order (MD5 digest order). -/
def wordLEHex (w : Nat) : String :=
  byteHex (w % 256) ++ byteHex (w / 256 % 256) ++ byteHex (w / 65536 % 256)
    ++ byteHex (w / 16777216 % 256)

/-- `hashlib.md5(bytes).hexdigest()`. -/
def md5Hex (bytes : List Nat) : String :=
  let st := md5Core bytes
  wordLEHex st.a ++ wordLEHex st.b ++ wordLEHex st.c ++ wordLEHex st.d

set_option maxRecDepth 100000

/-- Sanity check of the MD5 embedding against the RFC 1321 test vector. -/
theorem md5Hex_empty : md5Hex [] = "d41d8cd98f00b204e9800998ecf8427e" := by decide

/-- Sanity check of the MD5 embedding against the RFC 1321 test vector for "abc". -/
theorem md5Hex_abc :
    md5Hex (utf8Encode "abc") = "900150983cd24fb0d6963f7d28e17f72" := by decide

/-! ### The hash-keyed registry (`ExperimentManager` in `src/evaluate/evaluation.py`) -/

/-- `ExperimentManager.generate_hash`: the MD5 hex digest of
`json.dumps(params, sort_keys=True).encode()`. -/
def generate_hash (params : PDict) : String :=
  md5Hex (utf8Encode (dumpsSorted params))

/-- The dictionary `\x7b**parameters, "seed": seed\x7d` built by
`add_model_variation` before hashing.  Python dict merging keeps the position
of an already-present key and overwrites its value; an absent `"seed"` key is
appended at the end. -/
def mergeSeed (parameters : PDict) (seed : Int) : PDict :=
  if "seed" ∈ keysOf parameters then
    parameters.map (fun kv => if kv.1 = "seed" then ("seed", PValue.int seed) else kv)
  else parameters ++ [("seed", PValue.int seed)]

/-- The fingerprint `add_model_variation` computes for a (parameters, seed)
pair: `generate_hash(\x7b**parameters, "seed": seed\x7d)`. -/
def fingerprint (parameters : PDict) (seed : Int) : String :=
  generate_hash (mergeSeed parameters seed)

/-! ### The relational store (tables `Experimentos`, `Modelo`, `Execucao`) -/

/-- A row of the `Experimentos` table. -/
structure ExpRow where
  id : Nat
  nome : String
  projeto : String
deriving DecidableEq, Repr

/-- A row of the `Modelo` table. -/
structure ModeloRow where
  id : Nat
  idExperimento : Nat
  parametros : String
  semente : Int
  hash : String
deriving DecidableEq, Repr

/-- A row of the `Execucao` table.  `REAL` columns are modelled as `ℚ`. -/
structure ExecRow where
  idModelo : Nat
  rodada : Nat
  acuracia : ℚ
  f1ScoreMacro : ℚ
  tempoProcessamento : ℚ
deriving DecidableEq, Repr

/-- The project database: three tables, with the next `INTEGER PRIMARY KEY`
rowid SQLite will assign in `Experimentos` and `Modelo` (rows are only ever
appended, so the next rowid is one past the largest). -/
structure DB where
  experimentos : List ExpRow
  nextExpId : Nat
  modelos : List ModeloRow
  nextModeloId : Nat
  execucoes : List ExecRow
deriving DecidableEq, Repr

/-- A freshly created database (after `create_tables`). -/
def DB.empty : DB := ⟨[], 1, [], 1, []⟩

/-- `ExperimentManager.add_experiment` (`src/evaluate/evaluation.py`):
`INSERT INTO Experimentos (Nome, Projeto) VALUES (?, ?) ON CONFLICT(Nome,
Projeto) DO NOTHING`, then `return cur.lastrowid`.  When the pair already
exists the insert is a no-op and `lastrowid` on the freshly opened
connection is 0 (no insert has succeeded on that connection). -/
def add_experiment (proj : String) (db : DB) (experimentName : String) : Nat × DB :=
  if db.experimentos.any (fun e => e.nome == experimentName && e.projeto == proj) then
    (0, db)
  else
    (db.nextExpId,
     { db with
        experimentos := db.experimentos ++ [⟨db.nextExpId, experimentName, proj⟩],
        nextExpId := db.nextExpId + 1 })

/-- `ExperimentManager.add_model_variation` (`src/evaluate/evaluation.py`):
hash `\x7b**parameters, "seed": seed\x7d`, `SELECT ID FROM Modelo WHERE Hash = ?`
(`fetchone`), return the existing ID when found, otherwise insert
`(experiment_id, json.dumps(parameters), seed, hash)` and return `lastrowid`. -/
def add_model_variation (db : DB) (experimentId : Nat) (parameters : PDict)
    (seed : Int) : Nat × DB :=
  let h := fingerprint parameters seed
  match db.modelos.find? (fun r => r.hash == h) with
  | some r => (r.id, db)
  | none =>
      (db.nextModeloId,
       { db with
          modelos := db.modelos ++
            [⟨db.nextModeloId, experimentId, dumpsRaw parameters, seed, h⟩],
          nextModeloId := db.nextModeloId + 1 })

/-- `ExperimentManager.record_execution` (`src/evaluate/evaluation.py`):
append one row to `Execucao`. -/
def record_execution (db : DB) (modelId round : Nat)
    (accuracy f1ScoreMacro processingTime : ℚ) : DB :=
  { db with
     execucoes := db.execucoes ++ [⟨modelId, round, accuracy, f1ScoreMacro, processingTime⟩] }

/-! ### K-fold evaluation (`evaluate_model` in `src/evaluate/evaluation.py`) -/

/-- Size of test fold `i` of scikit-learn's `KFold(n_splits=k)` on `n`
samples: the first `n % k` folds have `n / k + 1` samples, the rest `n / k`.
Shuffling permutes which samples land in a fold but not the fold sizes. -/
def foldSize (n k i : Nat) : Nat := n / k + if i < n % k then 1 else 0

/-- `ExperimentManager.evaluate_model` (`src/evaluate/evaluation.py`).
The model variation is registered first; `KFold` then raises `ValueError`
when `folds < 2` or `folds > n` (the `.error` result carries the database
state, which keeps the registered variation).  Otherwise each fold `i` reads
the wall clock (`time.time()`, modelled as the oracle `clock` consumed two
ticks per fold), and records one `Execucao` row.  The Python body assigns
`accuracy = len(X_train)` and `f1_score_macro = len(X_test)` — the
`fit`/`predict`/`accuracy_score`/`f1_score` calls are commented out — so the
`classifier` argument is never used and the recorded "metrics" are the split
sizes `n - foldSize` and `foldSize`. -/
def evaluate_model {α : Type} (classifier : α) (db : DB) (experimentId : Nat)
    (parameterVariation : PDict) (randomState : Int) (n folds : Nat)
    (clock : Nat → ℚ) : Except DB (Nat × DB) :=
  let md := add_model_variation db experimentId parameterVariation randomState
  if folds < 2 ∨ n < folds then .error md.2
  else
    .ok (md.1,
      (List.range folds).foldl
        (fun db2 i =>
          record_execution db2 md.1 i
            ((n - foldSize n folds i : Nat) : ℚ)
            ((foldSize n folds i : Nat) : ℚ)
            (clock (2 * i + 1) - clock (2 * i)))
        md.2)

/-! ### Parameter-space expansion (both variants) -/

/-- A parameter space: each key maps to the list of values to try. -/
abbrev PSpace := List (String × List PValue)

/-- `itertools.product(*values)`: Cartesian product, leftmost factor slowest. -/
def cartesianProduct : List (List PValue) → List (List PValue)
  | [] => [[]]
  | xs :: rest => xs.flatMap (fun x => (cartesianProduct rest).map (x :: ·))

/-- `generate_parameter_combinations` in `src/evaluate/evaluation.py`:
`keys, values = zip(*parameter_dict.items())` — which raises `ValueError`
("not enough values to unpack") on an empty dictionary — then
`[dict(zip(keys, v)) for v in itertools.product(*values)]`. -/
def generate_parameter_combinations_ev (parameterDict : PSpace) :
    Except Unit (List PDict) :=
  match parameterDict with
  | [] => .error ()
  | _ => .ok ((cartesianProduct (parameterDict.map (·.2))).map
      (fun v => (parameterDict.map (·.1)).zip v))

/-- `generate_parameter_combinations` in
`src/prodclass/evaluate/experiment_manager.py`:
`[dict(zip(parameter_dict, v)) for v in itertools.product(*parameter_dict.values())]`
(iterating a dict yields its keys; on an empty dictionary `product()` yields
one empty tuple, so the result is `[\x7b\x7d]`). -/
def generate_parameter_combinations_pc (parameterDict : PSpace) : List PDict :=
  (cartesianProduct (parameterDict.map (·.2))).map
    (fun v => (parameterDict.map (·.1)).zip v)

/-- The loop body of `ExperimentManager.run` (`src/evaluate/evaluation.py`):
one `evaluate_model` call per parameter combination, in order; an exception
aborts the run (the `.error` state keeps all rows written so far).  Each
combination advances the wall clock past the `2 * folds` ticks of its folds. -/
def runCombos_ev {α : Type} (classifier : α) (experimentId : Nat) (randomState : Int)
    (n folds : Nat) (clock : Nat → ℚ) :
    DB → Nat → List PDict → Except DB DB
  | db, _, [] => .ok db
  | db, ci, P :: rest =>
      match evaluate_model classifier db experimentId P randomState n folds
          (fun t => clock (2 * folds * ci + t)) with
      | .error db2 => .error db2
      | .ok (_, db2) => runCombos_ev classifier experimentId randomState n folds clock db2 (ci + 1) rest

/-- `ExperimentManager.run` (`src/evaluate/evaluation.py`): register the
experiment, expand the parameter space, and evaluate every combination. -/
def run_ev {α : Type} (classifier : α) (proj : String) (db : DB)
    (experimentName : String) (n : Nat) (parameterDict : PSpace) (folds : Nat)
    (randomState : Int) (clock : Nat → ℚ) : Except DB DB :=
  let ed := add_experiment proj db experimentName
  match generate_parameter_combinations_ev parameterDict with
  | .error _ => .error ed.2
  | .ok combos => runCombos_ev classifier ed.1 randomState n folds clock ed.2 0 combos

/-! ### The query layer -/

/-- A row of the result set of `get_experiment_results`
(`SELECT M.Parametros, E.Rodada, E.Acuracia, E.F1ScoreMacro`). -/
structure ResultRow where
  parametros : String
  rodada : Nat
  acuracia : ℚ
  f1ScoreMacro : ℚ
deriving DecidableEq, Repr

/-- `ExperimentManager.get_experiment_results` (`src/evaluate/evaluation.py`):
relational reading of the parameterized query joining `Execucao` to `Modelo`
to `Experimentos`, filtered by experiment name and project.  An empty result
set is the empty list (an empty `DataFrame`). -/
def get_experiment_results_ev (proj : String) (db : DB) (experimentName : String) :
    List ResultRow :=
  db.execucoes.flatMap (fun e =>
    (db.modelos.filter (fun m => m.id == e.idModelo)).flatMap (fun m =>
      (db.experimentos.filter (fun ex =>
          ex.id == m.idExperimento && ex.nome == experimentName && ex.projeto == proj)).map
        (fun _ => ⟨m.parametros, e.rodada, e.acuracia, e.f1ScoreMacro⟩)))

/-- `ExperimentManager.get_experiment_results`
(`src/prodclass/evaluate/experiment_manager.py`).  The control flow is from
the source: look the experiment ID up first and return an empty `DataFrame`
when that lookup is empty.  The `query_sql` executor lives in the
`table_models` package, absent from the sources; its semantics is modelled
from the spec (§4.3: "joins execution rows to model rows to experiment rows
filtered by experiment name and project"); the result is projected to the
`Execucoes` columns kept by this embedding. -/
def get_experiment_results_pc (proj : String) (db : DB) (experimentName : String) :
    List ExecRow :=
  match (db.experimentos.filter (fun ex =>
      ex.nome == experimentName && ex.projeto == proj)).map (·.id) with
  | [] => []
  | expId :: _ =>
      db.execucoes.filter (fun e =>
        db.modelos.any (fun m => m.id == e.idModelo && m.idExperimento == expId))

/-! ### Connection lifecycle (resource model for `with sqlite3.connect(...)`) -/

/-- Connection-lifecycle events of one database operation. -/
inductive DBEvent where
  | connOpen
  | stmt
  | commitTx
  | rollbackTx
  | connClose
deriving DecidableEq, Repr

/-- Python semantics of `with self.connect_db() as conn:` for an `sqlite3`
connection: entering opens the connection, the body runs its statements, and
`Connection.__exit__` commits the transaction when the body succeeded or
rolls it back when it raised — it does not close the connection. -/
def withConnection (body : List DBEvent) (ok : Bool) : List DBEvent :=
  DBEvent.connOpen :: body ++ [if ok then DBEvent.commitTx else DBEvent.rollbackTx]

/-- Event trace of `create_tables` (three `CREATE TABLE IF NOT EXISTS`). -/
def create_tables_trace (ok : Bool) : List DBEvent :=
  withConnection [DBEvent.stmt, DBEvent.stmt, DBEvent.stmt] ok

/-- Event trace of `add_experiment` (one `INSERT`). -/
def add_experiment_trace (ok : Bool) : List DBEvent :=
  withConnection [DBEvent.stmt] ok

/-- Event trace of `add_model_variation` (a `SELECT`, and an `INSERT` when
the hash was not found). -/
def add_model_variation_trace (found ok : Bool) : List DBEvent :=
  withConnection (if found then [DBEvent.stmt] else [DBEvent.stmt, DBEvent.stmt]) ok

/-- Event trace of `record_execution` (one `INSERT`). -/
def record_execution_trace (ok : Bool) : List DBEvent :=
  withConnection [DBEvent.stmt] ok

/-- Event trace of `get_experiment_results` (one `SELECT` via `read_sql_query`). -/
def get_experiment_results_trace (ok : Bool) : List DBEvent :=
  withConnection [DBEvent.stmt] ok

/-! ### Well-formedness invariants of the store -/

/-- The `Modelo` table is well formed: every rowid is below the next rowid
SQLite will assign, and rowids are pairwise distinct. -/
def ModeloWF (db : DB) : Prop :=
  (∀ r ∈ db.modelos, r.id < db.nextModeloId) ∧ (db.modelos.map (·.id)).Nodup

instance (db : DB) : Decidable (ModeloWF db) := by
  unfold ModeloWF; infer_instance

/-- All `Experimentos` rowids are positive (SQLite assigns rowids from 1). -/
def expIdsPositive (db : DB) : Prop := ∀ r ∈ db.experimentos, 1 ≤ r.id

instance (db : DB) : Decidable (expIdsPositive db) := by
  unfold expIdsPositive; infer_instance

/-! ### Order lemmas for the key sort -/

/-- Totality of the code-point order on character lists. -/
theorem charListLe_total : ∀ as bs : List Char,
    charListLe as bs = true ∨ charListLe bs as = true
  | [], _ => Or.inl rfl
  | _ :: _, [] => Or.inr rfl
  | a :: as, b :: bs => by
      rcases lt_trichotomy a b with hab | hab | hab
      · left; simp [charListLe, hab]
      · subst hab
        rcases charListLe_total as bs with ih | ih
        · left; simp [charListLe, ih]
        · right; simp [charListLe, ih]
      · right; simp [charListLe, hab]

/-- Transitivity of the code-point order on character lists. -/
theorem charListLe_trans : ∀ as bs cs : List Char,
    charListLe as bs = true → charListLe bs cs = true → charListLe as cs = true
  | [], _, _, _, _ => rfl
  | _ :: _, [], _, h1, _ => by simp [charListLe] at h1
  | _ :: _, _ :: _, [], _, h2 => by simp [charListLe] at h2
  | a :: as, b :: bs, c :: cs, h1, h2 => by
      simp only [charListLe] at h1 h2 ⊢
      rcases lt_trichotomy a b with hab | hab | hab
      · rcases lt_trichotomy b c with hbc | hbc | hbc
        · simp [lt_trans hab hbc]
        · subst hbc; simp [hab]
        · rw [if_neg (lt_asymm hbc), if_pos hbc] at h2
          simp at h2
      · subst hab
        rcases lt_trichotomy a c with hac | hac | hac
        · simp [hac]
        · subst hac
          rw [if_neg (lt_irrefl a), if_neg (lt_irrefl a)] at h1 h2 ⊢
          exact charListLe_trans as bs cs h1 h2
        · rw [if_neg (lt_asymm hac), if_pos hac] at h2
          simp at h2
      · rw [if_neg (lt_asymm hab), if_pos hab] at h1
        simp at h1

/-- Antisymmetry of the code-point order on character lists. -/
theorem charListLe_antisymm : ∀ as bs : List Char,
    charListLe as bs = true → charListLe bs as = true → as = bs
  | [], [], _, _ => rfl
  | [], _ :: _, _, h2 => by simp [charListLe] at h2
  | _ :: _, [], h1, _ => by simp [charListLe] at h1
  | a :: as, b :: bs, h1, h2 => by
      simp only [charListLe] at h1 h2
      rcases lt_trichotomy a b with hab | hab | hab
      · rw [if_neg (lt_asymm hab), if_pos hab] at h2
        simp at h2
      · subst hab
        rw [if_neg (lt_irrefl a), if_neg (lt_irrefl a)] at h1 h2
        rw [charListLe_antisymm as bs h1 h2]
      · rw [if_neg (lt_asymm hab), if_pos hab] at h1
        simp at h1

instance : IsTotal (String × PValue) entryLe :=
  ⟨fun a b => charListLe_total a.1.data b.1.data⟩

instance : IsTrans (String × PValue) entryLe :=
  ⟨fun a b c => charListLe_trans a.1.data b.1.data c.1.data⟩

/-- Two strings with the same character data are equal. -/
theorem string_eq_of_data_eq {s t : String} (h : s.data = t.data) : s = t :=
  String.ext h

/-- Strict key order: non-strict key order plus distinct keys. -/
def entryLT (a b : String × PValue) : Prop := entryLe a b ∧ a.1 ≠ b.1

instance : IsAntisymm (String × PValue) entryLT :=
  ⟨fun a b h1 h2 =>
    absurd (string_eq_of_data_eq (charListLe_antisymm _ _ h1.1 h2.1)) h1.2⟩

/-- A key-sorted entry list with pairwise-distinct keys is strictly sorted. -/
theorem pairwise_entryLT_of_sorted (l : PDict) (hl : nodupKeys l)
    (hs : List.Sorted entryLe l) : List.Pairwise entryLT l := by
  have hne : l.Pairwise (fun a b : String × PValue => a.1 ≠ b.1) :=
    List.pairwise_map.mp hl
  exact (hs.and hne).imp (fun h => ⟨h.1, h.2⟩)

/-- Key-sorting is canonical: two entry lists with pairwise-distinct keys
that are permutations of each other sort to the same list. -/
theorem sortEntries_eq_of_perm (l1 l2 : PDict) (h1 : nodupKeys l1)
    (h2 : nodupKeys l2) (hp : List.Perm l1 l2) :
    sortEntries l1 = sortEntries l2 := by
  have hp1 : List.Perm (sortEntries l1) l1 := List.perm_insertionSort entryLe l1
  have hp2 : List.Perm (sortEntries l2) l2 := List.perm_insertionSort entryLe l2
  have hk1 : nodupKeys (sortEntries l1) := by
    unfold nodupKeys keysOf at h1 ⊢
    exact ((hp1.map _).nodup_iff).mpr h1
  have hk2 : nodupKeys (sortEntries l2) := by
    unfold nodupKeys keysOf at h2 ⊢
    exact ((hp2.map _).nodup_iff).mpr h2
  exact List.eq_of_perm_of_sorted (hp1.trans (hp.trans hp2.symm))
    (pairwise_entryLT_of_sorted _ hk1 (List.sorted_insertionSort entryLe l1))
    (pairwise_entryLT_of_sorted _ hk2 (List.sorted_insertionSort entryLe l2))

/-! ### Lookup and merge lemmas -/

/-- A key absent from a dictionary looks up to nothing. -/
theorem lookupKey_not_mem : ∀ (P : PDict) (k : String),
    k ∉ keysOf P → lookupKey k P = none := by
  intro P
  induction P with
  | nil => intro k _; rfl
  | cons kv rest ih =>
      obtain ⟨k1, v⟩ := kv
      intro k h
      simp only [keysOf, List.map_cons, List.mem_cons, not_or] at h
      unfold lookupKey
      rw [if_neg (fun he => h.1 he.symm)]
      exact ih k (by simpa [keysOf] using h.2)

/-- Lookup skips a prefix in which the key is absent. -/
theorem lookupKey_append_of_none : ∀ (P Q : PDict) (k : String),
    lookupKey k P = none → lookupKey k (P ++ Q) = lookupKey k Q := by
  intro P
  induction P with
  | nil => intro Q k _; rfl
  | cons kv rest ih =>
      obtain ⟨k1, v⟩ := kv
      intro Q k h
      by_cases he : k1 = k
      · simp [lookupKey, he] at h
      · simp only [List.cons_append, lookupKey, if_neg he] at h ⊢
        exact ih Q k h

/-- Lookup ignores a suffix in which the key is absent. -/
theorem lookupKey_append_of_none_right : ∀ (P Q : PDict) (k : String),
    lookupKey k Q = none → lookupKey k (P ++ Q) = lookupKey k P := by
  intro P
  induction P with
  | nil => intro Q k h; simpa using h
  | cons kv rest ih =>
      obtain ⟨k1, v⟩ := kv
      intro Q k h
      by_cases he : k1 = k
      · simp [lookupKey, List.cons_append, he]
      · simp only [List.cons_append, lookupKey, if_neg he]
        exact ih Q k h

/-- For a mapping without a "seed" key, the merged dictionary maps "seed" to
the seed argument. -/
theorem mergeSeed_lookup_seed (P : PDict) (S : Int) (h : "seed" ∉ keysOf P) :
    lookupKey "seed" (mergeSeed P S) = some (PValue.int S) := by
  unfold mergeSeed
  rw [if_neg h, lookupKey_append_of_none P _ _ (lookupKey_not_mem P _ h)]
  rfl

/-- For a mapping without a "seed" key, the merged dictionary agrees with the
mapping on every other key. -/
theorem mergeSeed_lookup_other (P : PDict) (S : Int) (k : String)
    (hseed : "seed" ∉ keysOf P) (hk : k ≠ "seed") :
    lookupKey k (mergeSeed P S) = lookupKey k P := by
  unfold mergeSeed
  rw [if_neg hseed]
  refine lookupKey_append_of_none_right P _ k ?_
  unfold lookupKey
  rw [if_neg (fun h : "seed" = k => hk h.symm)]
  rfl

/-- Merging the seed preserves permutation of the entries. -/
theorem mergeSeed_perm (P1 P2 : PDict) (S : Int) (hp : List.Perm P1 P2) :
    List.Perm (mergeSeed P1 S) (mergeSeed P2 S) := by
  unfold mergeSeed
  have hmem : ("seed" ∈ keysOf P1) ↔ ("seed" ∈ keysOf P2) := (hp.map (·.1)).mem_iff
  by_cases h : "seed" ∈ keysOf P1
  · rw [if_pos h, if_pos (hmem.mp h)]
    exact hp.map _
  · rw [if_neg h, if_neg (fun hh => h (hmem.mpr hh))]
    exact hp.append_right _

/-- Merging the seed preserves distinctness of the keys. -/
theorem mergeSeed_nodupKeys (P : PDict) (S : Int) (h : nodupKeys P) :
    nodupKeys (mergeSeed P S) := by
  unfold mergeSeed
  by_cases hm : "seed" ∈ keysOf P
  · rw [if_pos hm]
    unfold nodupKeys keysOf at h ⊢
    rw [List.map_map]
    have hfun : ((fun p : String × PValue => p.1) ∘ fun kv =>
        if kv.1 = "seed" then ("seed", PValue.int S) else kv)
        = fun kv : String × PValue => kv.1 := by
      funext kv
      by_cases hk : kv.1 = "seed" <;> simp [Function.comp, hk]
    rw [hfun]
    exact h
  · rw [if_neg hm]
    unfold nodupKeys keysOf at h ⊢
    rw [List.map_append]
    refine List.Nodup.append h (by simp) ?_
    intro a ha hb
    simp only [List.map_cons, List.map_nil, List.mem_singleton] at hb
    subst hb
    exact hm ha

/-! ## Claim theorems -/

/-- C2: `add_model_variation` is idempotent: a second call with the same
parameter mapping and seed against the same experiment leaves the
model-variation table (and the whole database) unchanged and returns the
model-variation identifier the first call returned. -/
theorem add_model_variation_idempotent (db : DB) (experimentId : Nat)
    (P : PDict) (S : Int) :
    (add_model_variation (add_model_variation db experimentId P S).2 experimentId P S).1
      = (add_model_variation db experimentId P S).1
    ∧ (add_model_variation (add_model_variation db experimentId P S).2 experimentId P S).2
      = (add_model_variation db experimentId P S).2 := by
  unfold add_model_variation
  cases hf : db.modelos.find? (fun r => r.hash == fingerprint P S) with
  | some r => simp [hf]
  | none => simp [hf, List.find?_append]

/-- C9: when `add_experiment` is called with a (name, project) pair that
already exists, the conflict clause inserts nothing, and the returned value
is `cur.lastrowid` of the freshly opened connection after the no-op insert —
0, which is never the rowid of the stored experiment row. -/
theorem add_experiment_conflict_returns_stale_rowid (proj : String) (db : DB)
    (experimentName : String) (r : ExpRow) (hr : r ∈ db.experimentos)
    (hnome : r.nome = experimentName) (hproj : r.projeto = proj)
    (hpos : expIdsPositive db) :
    add_experiment proj db experimentName = (0, db)
    ∧ (add_experiment proj db experimentName).1 ≠ r.id := by
  have hany : db.experimentos.any (fun e => e.nome == experimentName && e.projeto == proj) = true := by
    simp only [List.any_eq_true]
    exact ⟨r, hr, by simp [hnome, hproj]⟩
  have h0 : add_experiment proj db experimentName = (0, db) := by
    simp [add_experiment, hany]
  refine ⟨h0, ?_⟩
  rw [h0]
  have := hpos r hr
  show (0 : Nat) ≠ r.id
  omega

/-- Witness for C9: a store holding the experiment ("exp", "proj") with rowid
1; re-registering it returns 0 and changes nothing. -/
theorem add_experiment_conflict_returns_stale_rowid_w :
    ((⟨1, "exp", "proj"⟩ : ExpRow) ∈ (⟨[⟨1, "exp", "proj"⟩], 2, [], 1, []⟩ : DB).experimentos)
    ∧ expIdsPositive ⟨[⟨1, "exp", "proj"⟩], 2, [], 1, []⟩
    ∧ add_experiment "proj" ⟨[⟨1, "exp", "proj"⟩], 2, [], 1, []⟩ "exp"
        = (0, ⟨[⟨1, "exp", "proj"⟩], 2, [], 1, []⟩)
    ∧ (add_experiment "proj" ⟨[⟨1, "exp", "proj"⟩], 2, [], 1, []⟩ "exp").1 ≠ 1 :=
  ⟨by decide, by decide,
   (add_experiment_conflict_returns_stale_rowid "proj" _ "exp" ⟨1, "exp", "proj"⟩
      (by decide) rfl rfl (by decide)).1,
   (add_experiment_conflict_returns_stale_rowid "proj" _ "exp" ⟨1, "exp", "proj"⟩
      (by decide) rfl rfl (by decide)).2⟩

/-- C10 counterexample: on the empty parameter dictionary — the default value
of `parameter_dict` in the `run` method of `src/evaluate/evaluation.py` — the
two implementations of `generate_parameter_combinations` disagree: the
evaluate variant raises `ValueError` while the prodclass variant returns the
one-element list containing the empty combination. -/
theorem generate_parameter_combinations_empty_diverge :
    generate_parameter_combinations_ev [] ≠ .ok (generate_parameter_combinations_pc [])
    ∧ generate_parameter_combinations_ev [] = .error ()
    ∧ generate_parameter_combinations_pc [] = [[]] :=
  ⟨fun h => Except.noConfusion h, rfl, rfl⟩

/-- C10 (amended): the two implementations of
`generate_parameter_combinations` return the same list of parameter
combinations for every non-empty parameter dictionary; on the empty
dictionary the evaluate variant raises `ValueError` while the prodclass
variant returns the one-element list containing the empty combination. -/
theorem generate_parameter_combinations_agree_nonempty (d : PSpace) (hd : d ≠ []) :
    generate_parameter_combinations_ev d = .ok (generate_parameter_combinations_pc d) := by
  cases d with
  | nil => exact absurd rfl hd
  | cons a l => rfl

/-- Witness for the amended C10 at the spec's example space. -/
theorem generate_parameter_combinations_agree_nonempty_w :
    ([("C", [PValue.int 1, PValue.int 10])] : PSpace) ≠ []
    ∧ generate_parameter_combinations_ev [("C", [PValue.int 1, PValue.int 10])]
        = .ok (generate_parameter_combinations_pc [("C", [PValue.int 1, PValue.int 10])]) :=
  ⟨by decide, generate_parameter_combinations_agree_nonempty _ (by decide)⟩

/-- C5: on `\x7b"C": [1, 10]\x7d` the combination generator returns exactly
`[\x7b"C": 1\x7d, \x7b"C": 10\x7d]`, and a `run` with seed 42 over this space
on a fresh store registers exactly two model variations, one per combination,
both with seed 42 (here on 10 samples with the default 10 folds). -/
theorem run_registers_two_variations :
    generate_parameter_combinations_ev [("C", [PValue.int 1, PValue.int 10])]
      = .ok [[("C", PValue.int 1)], [("C", PValue.int 10)]]
    ∧ (run_ev () "proj" DB.empty "exp" 10 [("C", [PValue.int 1, PValue.int 10])] 10 42
        (fun t => (t : ℚ))).toOption.map
          (fun db => db.modelos.map (fun m => (m.parametros, m.semente)))
      = some [(dumpsRaw [("C", PValue.int 1)], 42), (dumpsRaw [("C", PValue.int 10)], 42)] := by
  constructor
  · rfl
  · decide

/-- C8 counterexample: the event trace of a successful `add_experiment` —
`with self.connect_db() as conn:` around one `INSERT` — contains no
connection-close event: `sqlite3.Connection.__exit__` ends the transaction
but leaves the connection open. -/
theorem add_experiment_trace_never_closes :
    DBEvent.connClose ∉ add_experiment_trace true := by decide

/-- C8 (amended): every database operation opens exactly one connection of
its own, and on exit — success and failure alike — the context manager
commits respectively rolls back the transaction; the connection is not
closed by any operation (it is reclaimed only by garbage collection). -/
theorem operations_open_once_never_close (ok found : Bool) :
    ((create_tables_trace ok).count DBEvent.connOpen = 1
      ∧ DBEvent.connClose ∉ create_tables_trace ok
      ∧ (create_tables_trace ok).getLast? =
          some (if ok then DBEvent.commitTx else DBEvent.rollbackTx))
    ∧ ((add_experiment_trace ok).count DBEvent.connOpen = 1
      ∧ DBEvent.connClose ∉ add_experiment_trace ok
      ∧ (add_experiment_trace ok).getLast? =
          some (if ok then DBEvent.commitTx else DBEvent.rollbackTx))
    ∧ ((add_model_variation_trace found ok).count DBEvent.connOpen = 1
      ∧ DBEvent.connClose ∉ add_model_variation_trace found ok
      ∧ (add_model_variation_trace found ok).getLast? =
          some (if ok then DBEvent.commitTx else DBEvent.rollbackTx))
    ∧ ((record_execution_trace ok).count DBEvent.connOpen = 1
      ∧ DBEvent.connClose ∉ record_execution_trace ok
      ∧ (record_execution_trace ok).getLast? =
          some (if ok then DBEvent.commitTx else DBEvent.rollbackTx))
    ∧ ((get_experiment_results_trace ok).count DBEvent.connOpen = 1
      ∧ DBEvent.connClose ∉ get_experiment_results_trace ok
      ∧ (get_experiment_results_trace ok).getLast? =
          some (if ok then DBEvent.commitTx else DBEvent.rollbackTx)) := by
  cases ok <;> cases found <;> decide

/-- C1: in `evaluate_model` of `src/evaluate/evaluation.py` the persisted
per-fold "metrics" are not the accuracy and macro-F1 of the classifier's
predictions: the result is independent of the caller-supplied classifier
(which the body never touches — the `fit`/`predict`/`accuracy_score`/
`f1_score` calls are commented out), and on 10 samples with 5 folds every
fold records `Acuracia = 8` (`len(X_train)`) and `F1ScoreMacro = 2`
(`len(X_test)`) — values a genuine accuracy or macro-F1 in `[0, 1]` can
never take. -/
theorem evaluate_model_ignores_classifier :
    (∀ (α β : Type) (c1 : α) (c2 : β) (db : DB) (experimentId : Nat) (P : PDict)
        (S : Int) (n folds : Nat) (clock : Nat → ℚ),
        evaluate_model c1 db experimentId P S n folds clock
          = evaluate_model c2 db experimentId P S n folds clock)
    ∧ (evaluate_model () DB.empty 1 [("C", PValue.int 1)] 42 10 5
        (fun t => (t : ℚ))).toOption.map
          (fun p => p.2.execucoes.map (fun e => (e.acuracia, e.f1ScoreMacro)))
      = some [(8, 2), (8, 2), (8, 2), (8, 2), (8, 2)] := by
  constructor
  · intro α β c1 c2 db experimentId P S n folds clock
    rfl
  · decide

/-- `add_model_variation` never touches the `Execucao` table. -/
theorem add_model_variation_execucoes (db : DB) (experimentId : Nat)
    (P : PDict) (S : Int) :
    (add_model_variation db experimentId P S).2.execucoes = db.execucoes := by
  unfold add_model_variation
  cases hf : db.modelos.find? (fun r => r.hash == fingerprint P S) <;> simp [hf]

/-- The fold loop of `evaluate_model` appends one `Execucao` row per fold
index and changes nothing else about the rows already present. -/
theorem evaluate_model_foldl_execucoes (modelId n folds : Nat) (clock : Nat → ℚ) :
    ∀ (l : List Nat) (db : DB),
      (l.foldl (fun db2 i =>
          record_execution db2 modelId i ((n - foldSize n folds i : Nat) : ℚ)
            ((foldSize n folds i : Nat) : ℚ)
            (clock (2 * i + 1) - clock (2 * i))) db).execucoes
        = db.execucoes ++ l.map (fun i =>
            (⟨modelId, i, ((n - foldSize n folds i : Nat) : ℚ),
              ((foldSize n folds i : Nat) : ℚ),
              clock (2 * i + 1) - clock (2 * i)⟩ : ExecRow)) := by
  intro l
  induction l with
  | nil => intro db; simp
  | cons a t ih =>
      intro db
      rw [List.foldl_cons, ih]
      simp [record_execution, List.append_assoc]

/-- C6: a call to `evaluate_model` with `folds = 5` on a dataset of `5 ≤ n`
samples succeeds and persists exactly 5 execution rows — one per fold — all
carrying the identifier of the corresponding model variation, and each with a
non-negative processing time (the wall clock read by `time.time()` is assumed
non-decreasing between successive reads). -/
theorem evaluate_model_five_rows {α : Type} (classifier : α) (db : DB)
    (experimentId : Nat) (P : PDict) (S : Int) (n : Nat) (clock : Nat → ℚ)
    (hn : 5 ≤ n) (hclock : ∀ i j : Nat, i ≤ j → clock i ≤ clock j) :
    ∃ modelId db2 newRows,
      evaluate_model classifier db experimentId P S n 5 clock = .ok (modelId, db2)
      ∧ modelId = (add_model_variation db experimentId P S).1
      ∧ db2.execucoes = db.execucoes ++ newRows
      ∧ newRows.length = 5
      ∧ ∀ r ∈ newRows, r.idModelo = modelId ∧ 0 ≤ r.tempoProcessamento := by
  have hcond : ¬(5 < 2 ∨ n < 5) := by omega
  have heval : evaluate_model classifier db experimentId P S n 5 clock
      = .ok ((add_model_variation db experimentId P S).1,
        (List.range 5).foldl (fun db2 i =>
          record_execution db2 (add_model_variation db experimentId P S).1 i
            ((n - foldSize n 5 i : Nat) : ℚ) ((foldSize n 5 i : Nat) : ℚ)
            (clock (2 * i + 1) - clock (2 * i)))
          (add_model_variation db experimentId P S).2) := by
    simp only [evaluate_model]
    rw [if_neg hcond]
  refine ⟨(add_model_variation db experimentId P S).1, _,
    (List.range 5).map (fun i =>
      (⟨(add_model_variation db experimentId P S).1, i,
        ((n - foldSize n 5 i : Nat) : ℚ), ((foldSize n 5 i : Nat) : ℚ),
        clock (2 * i + 1) - clock (2 * i)⟩ : ExecRow)), heval, rfl, ?_, ?_, ?_⟩
  · rw [evaluate_model_foldl_execucoes, add_model_variation_execucoes]
  · simp
  · intro r hr
    simp only [List.mem_map, List.mem_range] at hr
    obtain ⟨i, -, rfl⟩ := hr
    refine ⟨rfl, ?_⟩
    have := hclock (2 * i) (2 * i + 1) (by omega)
    simpa using this

/-- Witness for C6: 7 samples, 5 folds, the identity wall clock, fresh store. -/
theorem evaluate_model_five_rows_w :
    (5 ≤ 7)
    ∧ ∃ modelId db2 newRows,
        evaluate_model () DB.empty 1 [] 0 7 5 (fun t => (t : ℚ)) = .ok (modelId, db2)
        ∧ modelId = (add_model_variation DB.empty 1 [] 0).1
        ∧ db2.execucoes = DB.empty.execucoes ++ newRows
        ∧ newRows.length = 5
        ∧ ∀ r ∈ newRows, r.idModelo = modelId ∧ 0 ≤ r.tempoProcessamento :=
  ⟨by decide,
   evaluate_model_five_rows () DB.empty 1 [] 0 7 (fun t => (t : ℚ)) (by omega)
     (fun i j hij => by show ((i : ℚ) ≤ (j : ℚ)); exact_mod_cast hij)⟩

/-- C7: querying the results of an experiment name absent from the store
returns an empty result set — in both variants of `get_experiment_results` —
rather than raising an error. -/
theorem get_experiment_results_absent_empty (proj : String) (db : DB)
    (experimentName : String)
    (habs : ∀ ex ∈ db.experimentos, ex.nome ≠ experimentName) :
    get_experiment_results_ev proj db experimentName = []
    ∧ get_experiment_results_pc proj db experimentName = [] := by
  have hinner : ∀ m : ModeloRow, db.experimentos.filter (fun ex =>
      ex.id == m.idExperimento && ex.nome == experimentName && ex.projeto == proj) = [] := by
    intro m
    rw [List.filter_eq_nil_iff]
    intro ex hex
    simp only [Bool.and_eq_true, beq_iff_eq, not_and]
    rintro ⟨-, hn⟩ -
    exact habs ex hex hn
  have hsel : db.experimentos.filter (fun ex =>
      ex.nome == experimentName && ex.projeto == proj) = [] := by
    rw [List.filter_eq_nil_iff]
    intro ex hex
    simp only [Bool.and_eq_true, beq_iff_eq, not_and]
    intro hn
    exact absurd hn (habs ex hex)
  constructor
  · simp [get_experiment_results_ev, hinner]
  · simp [get_experiment_results_pc, hsel]

/-- A concrete store for the C7 witness: one experiment "exp" of project
"proj", one model variation, one execution row. -/
def dbC7 : DB :=
  ⟨[⟨1, "exp", "proj"⟩], 2, [⟨1, 1, "\x7b\x7d", 0, "h"⟩], 2, [⟨1, 0, 1, 1, 0⟩]⟩

/-- Witness for C7: querying "missing" on a non-empty store. -/
theorem get_experiment_results_absent_empty_w :
    (∀ ex ∈ dbC7.experimentos, ex.nome ≠ "missing")
    ∧ get_experiment_results_ev "proj" dbC7 "missing" = []
    ∧ get_experiment_results_pc "proj" dbC7 "missing" = [] :=
  ⟨by decide,
   (get_experiment_results_absent_empty "proj" dbC7 "missing" (by decide)).1,
   (get_experiment_results_absent_empty "proj" dbC7 "missing" (by decide)).2⟩

/-- C4: the fingerprint is a deterministic function of the parameter-mapping
contents plus the seed, via sorted-key JSON serialization: two mappings with
the same key-value pairs in any insertion order (permutations of each other,
keys pairwise distinct) hash to the same value with the same seed.
Determinism on identical input is function application; this theorem states
the key-order independence. -/
theorem fingerprint_key_order_independent (P1 P2 : PDict) (S : Int)
    (h1 : nodupKeys P1) (h2 : nodupKeys P2) (hperm : List.Perm P1 P2) :
    fingerprint P1 S = fingerprint P2 S := by
  unfold fingerprint generate_hash dumpsSorted
  rw [sortEntries_eq_of_perm (mergeSeed P1 S) (mergeSeed P2 S)
        (mergeSeed_nodupKeys P1 S h1) (mergeSeed_nodupKeys P2 S h2)
        (mergeSeed_perm P1 P2 S hperm)]

/-- Witness for C4: the two insertion orders of `\x7b"a": 1, "b": "x"\x7d`. -/
theorem fingerprint_key_order_independent_w :
    nodupKeys [("a", PValue.int 1), ("b", PValue.str "x")]
    ∧ nodupKeys [("b", PValue.str "x"), ("a", PValue.int 1)]
    ∧ List.Perm [("a", PValue.int 1), ("b", PValue.str "x")]
        [("b", PValue.str "x"), ("a", PValue.int 1)]
    ∧ fingerprint [("a", PValue.int 1), ("b", PValue.str "x")] 5
        = fingerprint [("b", PValue.str "x"), ("a", PValue.int 1)] 5 :=
  ⟨by decide, by decide, List.Perm.swap _ _ _,
   fingerprint_key_order_independent _ _ 5 (by decide) (by decide) (List.Perm.swap _ _ _)⟩

/-- C3 counterexample: the seed argument overwrites a parameter named "seed"
in the merged dictionary that is hashed, so the distinct registry inputs
`(\x7b"seed": 999\x7d, 7)` and `(\x7b\x7d, 7)` get the same fingerprint, and
registering them in sequence resolves both to the same model-variation row
(one row in the table, same returned identifier), contradicting the claim
that differing inputs always get differing fingerprints and distinct rows. -/
theorem fingerprint_seed_key_collision :
    ([("seed", PValue.int 999)] : PDict) ≠ ([] : PDict)
    ∧ fingerprint [("seed", PValue.int 999)] 7 = fingerprint [] 7
    ∧ (add_model_variation (add_model_variation DB.empty 1 [("seed", PValue.int 999)] 7).2
        1 [] 7).1
        = (add_model_variation DB.empty 1 [("seed", PValue.int 999)] 7).1
    ∧ (add_model_variation (add_model_variation DB.empty 1 [("seed", PValue.int 999)] 7).2
        1 [] 7).2.modelos.length = 1 := by
  refine ⟨by decide, rfl, ?_, ?_⟩ <;> decide

/-- C3 (amended): for two differing registry inputs — different mappings with
the same seed, or the same mapping with different seeds — *whose mappings do
not contain the reserved key "seed"*, the merged dictionaries that
`add_model_variation` hashes differ as mappings; and whenever the resulting
MD5 fingerprints differ (the hash can in principle collide on distinct
serializations), registering the two inputs in sequence against a well-formed
store resolves them to distinct model-variation rows. -/
theorem fingerprint_distinct_without_seed_key (P1 P2 : PDict) (S1 S2 : Int)
    (db : DB) (e1 e2 : Nat)
    (hs1 : "seed" ∉ keysOf P1) (hs2 : "seed" ∉ keysOf P2)
    (hdiff : (∃ k, lookupKey k P1 ≠ lookupKey k P2) ∨ S1 ≠ S2)
    (hwf : ModeloWF db) :
    (∃ k, lookupKey k (mergeSeed P1 S1) ≠ lookupKey k (mergeSeed P2 S2))
    ∧ (fingerprint P1 S1 ≠ fingerprint P2 S2 →
        (add_model_variation (add_model_variation db e1 P1 S1).2 e2 P2 S2).1
          ≠ (add_model_variation db e1 P1 S1).1) := by
  constructor
  · rcases hdiff with ⟨k, hk⟩ | hS
    · have hkne : k ≠ "seed" := by
        intro he; subst he
        rw [lookupKey_not_mem P1 _ hs1, lookupKey_not_mem P2 _ hs2] at hk
        exact hk rfl
      refine ⟨k, ?_⟩
      rw [mergeSeed_lookup_other P1 S1 k hs1 hkne, mergeSeed_lookup_other P2 S2 k hs2 hkne]
      exact hk
    · refine ⟨"seed", ?_⟩
      rw [mergeSeed_lookup_seed P1 S1 hs1, mergeSeed_lookup_seed P2 S2 hs2]
      simp [hS]
  · intro hfp
    unfold add_model_variation
    cases hf1 : db.modelos.find? (fun r => r.hash == fingerprint P1 S1) with
    | some r1 =>
        simp only [hf1]
        cases hf2 : db.modelos.find? (fun r => r.hash == fingerprint P2 S2) with
        | some r2 =>
            simp only [hf2]
            intro hid
            have hm1 := List.mem_of_find?_eq_some hf1
            have hm2 := List.mem_of_find?_eq_some hf2
            have hh1 : r1.hash = fingerprint P1 S1 := by
              have := List.find?_some hf1; simpa using this
            have hh2 : r2.hash = fingerprint P2 S2 := by
              have := List.find?_some hf2; simpa using this
            have hr : r2 = r1 := List.inj_on_of_nodup_map hwf.2 hm2 hm1 hid
            exact hfp (by rw [← hh1, ← hh2, hr])
        | none =>
            simp only [hf2]
            have := hwf.1 r1 (List.mem_of_find?_eq_some hf1)
            intro hid
            omega
    | none =>
        simp only [hf1]
        have hrow : ((⟨db.nextModeloId, e1, dumpsRaw P1, S1, fingerprint P1 S1⟩ :
            ModeloRow).hash == fingerprint P2 S2) = false := by
          simpa using fun h => hfp h
        cases hf2 : db.modelos.find? (fun r => r.hash == fingerprint P2 S2) with
        | some r2 =>
            simp only [List.find?_append, hf2, Option.or]
            have := hwf.1 r2 (List.mem_of_find?_eq_some hf2)
            intro hid
            omega
        | none =>
            simp only [List.find?_append, hf2, Option.or, List.find?_cons, hrow,
              List.find?_nil]
            omega

/-- Witness for the amended C3: the inputs `(\x7b"C": 1\x7d, 42)` and
`(\x7b"C": 2\x7d, 42)` on a fresh store; their fingerprints do differ, and
the two registrations return distinct identifiers. -/
theorem fingerprint_distinct_without_seed_key_w :
    ("seed" ∉ keysOf [("C", PValue.int 1)])
    ∧ lookupKey "C" [("C", PValue.int 1)] ≠ lookupKey "C" [("C", PValue.int 2)]
    ∧ ModeloWF DB.empty
    ∧ fingerprint [("C", PValue.int 1)] 42 ≠ fingerprint [("C", PValue.int 2)] 42
    ∧ ((∃ k, lookupKey k (mergeSeed [("C", PValue.int 1)] 42)
          ≠ lookupKey k (mergeSeed [("C", PValue.int 2)] 42))
       ∧ (fingerprint [("C", PValue.int 1)] 42 ≠ fingerprint [("C", PValue.int 2)] 42 →
           (add_model_variation (add_model_variation DB.empty 1 [("C", PValue.int 1)] 42).2
               1 [("C", PValue.int 2)] 42).1
             ≠ (add_model_variation DB.empty 1 [("C", PValue.int 1)] 42).1))
    ∧ (add_model_variation (add_model_variation DB.empty 1 [("C", PValue.int 1)] 42).2
        1 [("C", PValue.int 2)] 42).1
        ≠ (add_model_variation DB.empty 1 [("C", PValue.int 1)] 42).1 :=
  ⟨by decide, by decide, by decide, by decide,
   fingerprint_distinct_without_seed_key [("C", PValue.int 1)] [("C", PValue.int 2)] 42 42
     DB.empty 1 1 (by decide) (by decide) (Or.inl ⟨"C", by decide⟩) (by decide),
   (fingerprint_distinct_without_seed_key [("C", PValue.int 1)] [("C", PValue.int 2)] 42 42
     DB.empty 1 1 (by decide) (by decide) (Or.inl ⟨"C", by decide⟩) (by decide)).2
     (by decide)⟩

end ProdClass
